import Mathlib

/-!
Shallow embedding of the sheet-mate repository's caching core:
`fastapi_app/services/redis.py`, `fastapi_app/services/employee.py`,
`fastapi_app/services/employee_cache_service.py`,
`fastapi_app/services/timesheet_cache_service.py` and
`processors/excel_generator.py`, together with theorems checking the
specification's claims about them.

Python values are modelled by `Scalar`/`PyVal`; in this codebase every
container that crosses the cache boundary holds only scalar fields, so
dictionaries, tuples and SQLAlchemy `Row` objects carry `Scalar` entries and
no deeper nesting is needed.  `json.dumps(..., default=str)` followed by
`json.loads` is modelled through an explicit JSON document type (`Json`):
`dumps` is `pyToJson` (with `default=str` turning `datetime` values into
their string rendering) and `loads` is `jsonToPy`.  Exceptions are modelled
with `Except PyError`; the database behind SQLAlchemy is modelled as a
reliable in-memory table, and the Redis transport failures the code guards
against are an explicit fault oracle `RedisFaults`.
-/

set_option autoImplicit false

namespace SheetMate

/-- Python exceptions that the modelled code can raise. -/
inductive PyError where
  | valueError (msg : String)
  | typeError (msg : String)
  | transportError
  | jsonError
  deriving DecidableEq, Repr

/-- Scalar Python values occurring in the cached records of this codebase. -/
inductive Scalar where
  | snone
  | sbool (b : Bool)
  | sint (n : Int)
  | sstr (s : String)
  | sdt (t : Nat)
  deriving DecidableEq, Repr

/-- Injective model of Python's `str(datetime)` rendering, applied by
`json.dumps(..., default=str)` to `datetime` values. -/
def dtStr (t : Nat) : String :=
  "datetime#" ++ toString t

/-- Rendering of a `Scalar`, used to model `str` applied to row members. -/
def scalarStr : Scalar → String
  | .snone => "None"
  | .sbool b => toString b
  | .sint n => toString n
  | .sstr s => s
  | .sdt t => dtStr t

/-- Model of `str(row)` for a SQLAlchemy `Row`: `json.dumps(row, default=str)`
falls back to `default=str` because a `Row` is not JSON-serializable. -/
def rowStr (fields : List (String × Scalar)) : String :=
  "Row(" ++ String.intercalate "," (fields.map fun p => p.1 ++ "=" ++ scalarStr p.2) ++ ")"

/-- Python values crossing the cache boundary in this codebase.
`prowA` is a SQLAlchemy `Row`-like object exposing `_asdict`; `prowF` is a
namedtuple-like object exposing `_fields`; `ptuple` is a plain positional
tuple or list; `pdict` a plain dict. -/
inductive PyVal where
  | scalar (v : Scalar)
  | pdict (fields : List (String × Scalar))
  | ptuple (vals : List Scalar)
  | prowA (fields : List (String × Scalar))
  | prowF (fields : List (String × Scalar))
  deriving DecidableEq, Repr

/-- Python truthiness of a `Scalar`. -/
def scalarTruthy : Scalar → Bool
  | .snone => false
  | .sbool b => b
  | .sint n => n != 0
  | .sstr s => s != ""
  | .sdt _ => true

/-- Python truthiness of a `PyVal` (containers are truthy iff nonempty). -/
def pyTruthy : PyVal → Bool
  | .scalar v => scalarTruthy v
  | .pdict fields => !fields.isEmpty
  | .ptuple vals => !vals.isEmpty
  | .prowA fields => !fields.isEmpty
  | .prowF fields => !fields.isEmpty

/-- JSON scalar documents. -/
inductive JScalar where
  | jnull
  | jbool (b : Bool)
  | jnum (n : Int)
  | jstr (s : String)
  deriving DecidableEq, Repr

/-- JSON documents produced by `json.dumps` on the values this codebase
caches: a scalar, an object of scalars, or an array of scalars. -/
inductive Json where
  | jscalar (v : JScalar)
  | jobj (fields : List (String × JScalar))
  | jarr (vals : List JScalar)
  deriving DecidableEq, Repr

/-- Model of `json.dumps(..., default=str)` on a scalar: JSON-representable scalars
are kept, a `datetime` is rendered through `default=str`. -/
def scalarToJ : Scalar → JScalar
  | .snone => .jnull
  | .sbool b => .jbool b
  | .sint n => .jnum n
  | .sstr s => .jstr s
  | .sdt t => .jstr (dtStr t)

/-- Model of `json.dumps(value, default=str)` as used by `RedisService.set`.
A SQLAlchemy `Row` object is not JSON-serializable, so the whole object is
rendered through `default=str` into a single string. -/
def pyToJson : PyVal → Json
  | .scalar v => .jscalar (scalarToJ v)
  | .pdict fields => .jobj (fields.map fun p => (p.1, scalarToJ p.2))
  | .ptuple vals => .jarr (vals.map scalarToJ)
  | .prowA fields => .jscalar (.jstr (rowStr fields))
  | .prowF fields => .jscalar (.jstr (rowStr fields))

/-- Model of `json.loads` on a scalar document. -/
def jToScalar : JScalar → Scalar
  | .jnull => .snone
  | .jbool b => .sbool b
  | .jnum n => .sint n
  | .jstr s => .sstr s

/-- Model of `json.loads` on a stored document, as performed by `RedisService.get`. -/
def jsonToPy : Json → PyVal
  | .jscalar v => .scalar (jToScalar v)
  | .jobj fields => .pdict (fields.map fun p => (p.1, jToScalar p.2))
  | .jarr vals => .ptuple (vals.map jToScalar)

/-! ## Email validation (`EmployeeService._is_valid_email`)

The source checks `re.match(r'^[a-zA-Z0-9._%+-]+@[a-zA-Z0-9.-]+\.[a-zA-Z]{2,}$', email)`.
Both character classes exclude `@`, so a match splits the string at its first
`@`; the final `[a-zA-Z]{2,}$` is dot-free and anchored at the end, so the
mandatory `\.` of the domain is the last dot of the string.  Python's `$`
(without `re.MULTILINE`) also matches just before one trailing newline. -/

/-- Characters allowed in the local part: `[a-zA-Z0-9._%+-]`. -/
def emailLocalChar (c : Char) : Bool :=
  c.isAlpha || c.isDigit || c == '.' || c == '_' || c == '%' || c == '+' || c == '-'

/-- Characters allowed in the domain body: `[a-zA-Z0-9.-]`. -/
def emailDomainChar (c : Char) : Bool :=
  c.isAlpha || c.isDigit || c == '.' || c == '-'

/-- Split a character list at the first occurrence of `c`. -/
def splitFirst (c : Char) : List Char → Option (List Char × List Char)
  | [] => none
  | x :: xs =>
    if x = c then some ([], xs)
    else (splitFirst c xs).map fun p => (x :: p.1, p.2)

/-- Split a character list at the last occurrence of `c`. -/
def splitLast (c : Char) : List Char → Option (List Char × List Char)
  | [] => none
  | x :: xs =>
    match splitLast c xs with
    | some p => some (x :: p.1, p.2)
    | none => if x = c then some ([], xs) else none

/-- Model of `EmployeeService._is_valid_email`: full anchored match of the pattern
`^[a-zA-Z0-9._%+-]+@[a-zA-Z0-9.-]+\.[a-zA-Z]{2,}$`, with `$` also accepting
one trailing newline. -/
def is_valid_email (email : String) : Bool :=
  let cs :=
    match email.data.getLast? with
    | some '\n' => email.data.dropLast
    | _ => email.data
  match splitFirst '@' cs with
  | none => false
  | some (localPart, rest) =>
    match splitLast '.' rest with
    | none => false
    | some (body, tld) =>
      !localPart.isEmpty && localPart.all emailLocalChar &&
      !body.isEmpty && body.all emailDomainChar &&
      decide (2 ≤ tld.length) && tld.all Char.isAlpha

/-! ## The authoritative store (`fastapi_app/tables.py` + `employee.py`)

The `employees_employee` table: columns `id` (autoincrement primary key),
`name`, `email` (unique, nullable), `telegram_id` (unique), `is_active`,
`created_at`.  The database behind `AsyncSessionLocal` is modelled as a
reliable in-memory list of rows plus the autoincrement counter and a clock
supplying `datetime.now()`. -/

structure Employee where
  id : Int
  name : String
  email : Option String
  telegram_id : String
  is_active : Bool
  created_at : Nat
  deriving DecidableEq, Repr

structure DB where
  rows : List Employee
  nextId : Int
  now : Nat
  deriving DecidableEq, Repr

/-- Fixed column order of the `employees_employee` table, as listed in
`EmployeeCacheService._row_to_dict`. -/
def columns : List String :=
  ["id", "name", "email", "telegram_id", "is_active", "created_at"]

/-- The scalar fields of an employee row, in table column order. -/
def Employee.fieldList (e : Employee) : List (String × Scalar) :=
  [("id", .sint e.id),
   ("name", .sstr e.name),
   ("email", match e.email with | some s => .sstr s | none => .snone),
   ("telegram_id", .sstr e.telegram_id),
   ("is_active", .sbool e.is_active),
   ("created_at", .sdt e.created_at)]

/-- The SQLAlchemy `Row` object returned for an employee by
`result.fetchone()`: a row exposing `_asdict`. -/
def Employee.toRow (e : Employee) : PyVal :=
  .prowA e.fieldList

/-- Model of `SELECT ... WHERE telegram_id == tid` + `fetchone()`. -/
def findByTid (db : DB) (tid : String) : Option Employee :=
  db.rows.find? fun e => e.telegram_id == tid

/-- Model of `EmployeeService.get_employee_by_telegram_id`: a read-only select. -/
def EmployeeService.get_employee_by_telegram_id (db : DB) (tid : String) :
    Option Employee × DB :=
  (findByTid db tid, db)

/-- Model of `EmployeeService.get_or_create_employee`: return the existing row, or
insert a fresh one (`email=None`, `is_active=True`, `created_at=now`),
commit, and re-query it. -/
def EmployeeService.get_or_create_employee (db : DB) (tid name : String) :
    Option Employee × DB :=
  match findByTid db tid with
  | some e => (some e, db)
  | none =>
    let newRow : Employee :=
      { id := db.nextId, name := name, email := none, telegram_id := tid,
        is_active := true, created_at := db.now }
    let db' : DB := { db with rows := db.rows ++ [newRow], nextId := db.nextId + 1 }
    (findByTid db' tid, db')

/-- Model of `EmployeeService.update_employee_email`: validate the format, require an
existing row, run the `UPDATE` (the unique constraint on `email` raises
`IntegrityError`, re-raised as `ValueError('Email already registered')`, when
another row already holds the new address), commit and re-query.  Every
failure rolls back, leaving the store unchanged, and raises. -/
def EmployeeService.update_employee_email (db : DB) (tid email : String) :
    Except PyError (Option Employee) × DB :=
  if !is_valid_email email then
    (.error (.valueError "Invalid email format"), db)
  else
    match findByTid db tid with
    | none => (.error (.valueError "Employee not found"), db)
    | some _ =>
      if db.rows.any fun r => r.telegram_id != tid && r.email == some email then
        (.error (.valueError "Email already registered"), db)
      else
        let db' : DB :=
          { db with rows := db.rows.map fun r =>
              if r.telegram_id == tid then { r with email := some email } else r }
        (.ok (findByTid db' tid), db')

/-! ## The Redis cache backend adapter (`fastapi_app/services/redis.py`)

`RedisService` keeps a lazily-connected client and a key/value store.  Each
stored value is the `json.dumps` output; a value that does not parse back
(the "malformed stored value" failure mode) is modelled by `.malformed`.
`RedisFaults` is the oracle of transport failures: one flag per underlying
client call that Python could see raise an exception. -/

/-- A value sitting in Redis: either a well-formed JSON document (the normal
`json.dumps` output) or a string that `json.loads` rejects. -/
inductive Stored where
  | good (doc : Json)
  | malformed (raw : String)
  deriving DecidableEq, Repr

/-- A Redis entry: the stored value plus the expiry (`ex=expire_seconds`)
it was last set with. -/
structure Entry where
  val : Stored
  ttl : Nat
  deriving DecidableEq, Repr

/-- The adapter state: whether `self.client` is set, and the keyspace. -/
structure RedisState where
  connected : Bool
  store : List (String × Entry)
  deriving DecidableEq, Repr

/-- Fault oracle: which underlying client calls raise. -/
structure RedisFaults where
  connect : Bool
  get : Bool
  set : Bool
  del : Bool
  keys : Bool
  deriving DecidableEq, Repr

/-- The fault oracle making every cache backend operation fail. -/
def allFail : RedisFaults :=
  { connect := true, get := true, set := true, del := true, keys := true }

/-- The fault oracle under which every backend operation succeeds. -/
def noFaults : RedisFaults :=
  { connect := false, get := false, set := false, del := false, keys := false }

/-- Model of `RedisService.connect` when `self.client` is unset: `redis.from_url`
assigns the client *before* `ping()` runs, so the client stays assigned even
when the ping raises and `connect` re-raises. -/
def ensureConnect (f : RedisFaults) (rs : RedisState) :
    Except PyError Unit × RedisState :=
  if rs.connected then (.ok (), rs)
  else
    let rs' : RedisState := { rs with connected := true }
    if f.connect then (.error .transportError, rs') else (.ok (), rs')

/-- Overwrite (or insert) a key, as Redis `SET`. -/
def storeSet (key : String) (e : Entry) (s : List (String × Entry)) :
    List (String × Entry) :=
  (key, e) :: s.filter fun p => p.1 != key

/-- Remove a key, as Redis `DEL`. -/
def storeDel (key : String) (s : List (String × Entry)) :
    List (String × Entry) :=
  s.filter fun p => p.1 != key

/-- Body of `RedisService.get` inside the `try`: lazy connect, `client.get`,
and `json.loads` on a present value (`json.dumps` output is never the empty
string, so a present value always passes the `if value :=` truthiness
check). -/
def redisGetBody (f : RedisFaults) (rs : RedisState) (key : String) :
    Except PyError (Option PyVal) × RedisState :=
  match ensureConnect f rs with
  | (.error e, rs') => (.error e, rs')
  | (.ok _, rs') =>
    if f.get then (.error .transportError, rs')
    else
      match (rs'.store.lookup key).map Entry.val with
      | some (.good doc) => (.ok (some (jsonToPy doc)), rs')
      | some (.malformed _) => (.error .jsonError, rs')
      | none => (.ok none, rs')

/-- Model of `RedisService.get`: the body wrapped in `try/except Exception`, which
turns every failure into `None`. -/
def redisGet (f : RedisFaults) (rs : RedisState) (key : String) :
    Option PyVal × RedisState :=
  match redisGetBody f rs key with
  | (.ok v, rs') => (v, rs')
  | (.error _, rs') => (none, rs')

/-- Body of `RedisService.set` inside the `try`: lazy connect, then
`client.set(name=key, value=json.dumps(value, default=str), ex=ttl)`. -/
def redisSetBody (f : RedisFaults) (rs : RedisState) (key : String)
    (value : PyVal) (ttl : Nat) : Except PyError Unit × RedisState :=
  match ensureConnect f rs with
  | (.error e, rs') => (.error e, rs')
  | (.ok _, rs') =>
    if f.set then (.error .transportError, rs')
    else (.ok (), { rs' with store := storeSet key ⟨.good (pyToJson value), ttl⟩ rs'.store })

/-- Model of `RedisService.set`: returns `True` on success, `False` on any failure. -/
def redisSet (f : RedisFaults) (rs : RedisState) (key : String)
    (value : PyVal) (ttl : Nat) : Bool × RedisState :=
  match redisSetBody f rs key value ttl with
  | (.ok _, rs') => (true, rs')
  | (.error _, rs') => (false, rs')

/-- Body of `RedisService.delete` inside the `try`. -/
def redisDeleteBody (f : RedisFaults) (rs : RedisState) (key : String) :
    Except PyError Unit × RedisState :=
  match ensureConnect f rs with
  | (.error e, rs') => (.error e, rs')
  | (.ok _, rs') =>
    if f.del then (.error .transportError, rs')
    else (.ok (), { rs' with store := storeDel key rs'.store })

/-- Model of `RedisService.delete`: `True` on success, `False` on any failure. -/
def redisDelete (f : RedisFaults) (rs : RedisState) (key : String) :
    Bool × RedisState :=
  match redisDeleteBody f rs key with
  | (.ok _, rs') => (true, rs')
  | (.error _, rs') => (false, rs')

/-- Redis glob matching as used by `KEYS pattern` (only `*` and literal
characters occur in this codebase's patterns; `?` matches one character). -/
def globMatch : List Char → List Char → Bool
  | [], s => s.isEmpty
  | p :: ps, s =>
    if p = '*' then
      match s with
      | [] => globMatch ps []
      | _ :: cs => globMatch ps s || globMatch (p :: ps) cs
    else
      match s with
      | [] => false
      | c :: cs => (p == '?' || p == c) && globMatch ps cs
  termination_by ps s => (ps.length, s.length)

/-- Body of `RedisService.delete_pattern` inside the `try`: lazy connect,
`client.keys(pattern)`, and — only when some keys matched — one
`client.delete(*keys)` call. -/
def redisDeletePatternBody (f : RedisFaults) (rs : RedisState) (pat : String) :
    Except PyError Unit × RedisState :=
  match ensureConnect f rs with
  | (.error e, rs') => (.error e, rs')
  | (.ok _, rs') =>
    if f.keys then (.error .transportError, rs')
    else
      let matching := (rs'.store.map Prod.fst).filter fun k => globMatch pat.data k.data
      if matching.isEmpty then (.ok (), rs')
      else if f.del then (.error .transportError, rs')
      else (.ok (), { rs' with store := rs'.store.filter fun p => !globMatch pat.data p.1.data })

/-- Model of `RedisService.delete_pattern`: `True` on success, `False` on failure. -/
def redisDeletePattern (f : RedisFaults) (rs : RedisState) (pat : String) :
    Bool × RedisState :=
  match redisDeletePatternBody f rs pat with
  | (.ok _, rs') => (true, rs')
  | (.error _, rs') => (false, rs')

/-! ## Employee cache service (`employee_cache_service.py`) -/

/-- Model of `EmployeeCacheService.EMPLOYEE_CACHE_TTL`. -/
def EMPLOYEE_CACHE_TTL : Nat := 3600

/-- Model of `EmployeeCacheService._get_employee_cache_key`. -/
def empKey (tid : String) : String :=
  "employee:telegram:" ++ tid

/-- Model of `EmployeeCacheService._row_to_dict`: `_asdict` rows and `_fields` rows
both normalize to the dict of their fields, a plain tuple or list is zipped
against the fixed column order, and anything else is returned unchanged. -/
def row_to_dict : PyVal → PyVal
  | .prowA fields => .pdict fields
  | .prowF fields => .pdict fields
  | .ptuple vals => .pdict (columns.zip vals)
  | v => v

/-- Model of `EmployeeCacheService._get_with_caching`: serve a truthy cached value
as-is (the `json.loads` result); otherwise fetch from the employee service,
cache the row converted by `_row_to_dict` (write failures are ignored), and
return the original row object. -/
def getWithCaching (f : RedisFaults) (tid : String)
    (fetch : DB → Except PyError (Option Employee) × DB)
    (rs : RedisState) (db : DB) :
    Except PyError (Option PyVal) × RedisState × DB :=
  let key := empKey tid
  let (cached, rs1) := redisGet f rs key
  let hit : Option PyVal :=
    match cached with
    | some v => if pyTruthy v then some v else none
    | none => none
  match hit with
  | some v => (.ok (some v), rs1, db)
  | none =>
    match fetch db with
    | (.error e, db') => (.error e, rs1, db')
    | (.ok employee, db') =>
      match employee with
      | some emp =>
        let (_, rs2) := redisSet f rs1 key (row_to_dict emp.toRow) EMPLOYEE_CACHE_TTL
        (.ok (some emp.toRow), rs2, db')
      | none => (.ok none, rs1, db')

/-- Model of `EmployeeCacheService.get_or_create_employee`. -/
def cacheGetOrCreate (f : RedisFaults) (tid name : String)
    (rs : RedisState) (db : DB) : Except PyError (Option PyVal) × RedisState × DB :=
  getWithCaching f tid
    (fun db => let r := EmployeeService.get_or_create_employee db tid name; (.ok r.1, r.2))
    rs db

/-- Model of `EmployeeCacheService.get_employee_by_telegram_id`. -/
def cacheGetByTid (f : RedisFaults) (tid : String)
    (rs : RedisState) (db : DB) : Except PyError (Option PyVal) × RedisState × DB :=
  getWithCaching f tid
    (fun db => let r := EmployeeService.get_employee_by_telegram_id db tid; (.ok r.1, r.2))
    rs db

/-- Model of `EmployeeCacheService.update_employee_email`: write through to the
authoritative store; an exception from the store propagates before any cache
access.  On a truthy updated row the cache entry is overwritten with the raw
`Row` object (not `_row_to_dict` of it); on a falsy result the entry is
invalidated. -/
def cacheUpdateEmail (f : RedisFaults) (tid email : String)
    (rs : RedisState) (db : DB) : Except PyError (Option PyVal) × RedisState × DB :=
  match EmployeeService.update_employee_email db tid email with
  | (.error e, db') => (.error e, rs, db')
  | (.ok updated, db') =>
    match updated with
    | some emp =>
      let (_, rs') := redisSet f rs (empKey tid) emp.toRow EMPLOYEE_CACHE_TTL
      (.ok (some emp.toRow), rs', db')
    | none =>
      let (_, rs') := redisDelete f rs (empKey tid)
      (.ok none, rs', db')

/-! ## Bot access without a cache (`bot/telegram_bot.py`)

When `redis_service` is `None` the bot's `_get_employee_data`,
`_get_employee_by_telegram_id` and `_update_employee_email` call the
employee service directly and hand its `Row` result to the caller. -/

/-- Model of `TelegramBot._get_employee_data` with no cache service configured. -/
def botNoCacheGetOrCreate (tid name : String) (db : DB) :
    Except PyError (Option PyVal) × DB :=
  let r := EmployeeService.get_or_create_employee db tid name
  (.ok (r.1.map Employee.toRow), r.2)

/-- Model of `TelegramBot._get_employee_by_telegram_id` with no cache service. -/
def botNoCacheGetByTid (tid : String) (db : DB) :
    Except PyError (Option PyVal) × DB :=
  let r := EmployeeService.get_employee_by_telegram_id db tid
  (.ok (r.1.map Employee.toRow), r.2)

/-- Model of `TelegramBot._update_employee_email` with no cache service. -/
def botNoCacheUpdateEmail (tid email : String) (db : DB) :
    Except PyError (Option PyVal) × DB :=
  match EmployeeService.update_employee_email db tid email with
  | (.error e, db') => (.error e, db')
  | (.ok r, db') => (.ok (r.map Employee.toRow), db')

/-! ## Timesheet generator and cache (`excel_generator.py`,
`timesheet_cache_service.py`) -/

/-- Model of `TimeSheetGenerator`: the period is fixed at construction from
`datetime.now()`. -/
structure Generator where
  month : Nat
  year : Nat
  deriving DecidableEq, Repr

/-- The file path `TimeSheetGenerator.generate_timesheet` saves to:
`f"/tmp/{employee_name}_{self.month}_{self.year}.xlsx"`. -/
def genPath (g : Generator) (name : String) : String :=
  "/tmp/" ++ name ++ "_" ++ toString g.month ++ "_" ++ toString g.year ++ ".xlsx"

/-- A Python call to `TimeSheetGenerator.generate_timesheet`.  The source
signature is `async def generate_timesheet(self, employee_name: str)` with
no default, so a call supplying no argument raises `TypeError` at the call
site; a call supplying a name builds the workbook and returns its path. -/
def callGenerateTimesheet (g : Generator) : Option String → Except PyError String
  | none => .error (.typeError "generate_timesheet() missing 1 required positional argument: employee_name")
  | some name => .ok (genPath g name)

/-- Model of `TimesheetCacheService.TIMESHEET_CACHE_TTL`. -/
def TIMESHEET_CACHE_TTL : Nat := 86400

/-- Model of `f'{month:02}'`. -/
def pad2 (n : Nat) : String :=
  if n < 10 then "0" ++ toString n else toString n

/-- Model of `TimesheetCacheService._get_template_cache_key`. -/
def tplKey (month year : Nat) : String :=
  "timesheet:template:" ++ pad2 month ++ ":" ++ toString year

/-- Oracle for the per-employee materialization step
(`shutil.copy2` + `openpyxl` load/save inside the `try`): whether some step
raises, and the `NamedTemporaryFile` path produced on success. -/
structure MatEnv where
  fails : Bool
  tmpPath : String
  deriving DecidableEq, Repr

/-- Model of `TimesheetCacheService._generate_timesheet_for_employee_from_template`:
copy the template to a fresh temp file, write the employee name into `A1`
and return the new path; if any step raises, fall back to the full generator
called with the employee name.  The file-system effects are abstracted into
`env`; the template path only feeds those effects. -/
def materializeFromTemplate (g : Generator) (env : MatEnv)
    (employeeName : String) (templatePath : PyVal) : Except PyError String :=
  if env.fails then callGenerateTimesheet g (some employeeName)
  else
    let _ := templatePath
    .ok env.tmpPath

/-- Model of `TimesheetCacheService.generate_timesheet`: on a truthy cached value,
materialize from it; on a miss, call the full generator *with no argument*,
cache the resulting path under the period key with the template TTL, and
materialize from it.  An exception from the generator call propagates. -/
def tcGenerateTimesheet (g : Generator) (f : RedisFaults) (env : MatEnv)
    (rs : RedisState) (employeeName : String) :
    Except PyError String × RedisState :=
  let key := tplKey g.month g.year
  let (cached, rs1) := redisGet f rs key
  let hit : Option PyVal :=
    match cached with
    | some v => if pyTruthy v then some v else none
    | none => none
  match hit with
  | some v => (materializeFromTemplate g env employeeName v, rs1)
  | none =>
    match callGenerateTimesheet g none with
    | .error e => (.error e, rs1)
    | .ok templatePath =>
      let (_, rs2) := redisSet f rs1 key (.scalar (.sstr templatePath)) TIMESHEET_CACHE_TTL
      (materializeFromTemplate g env employeeName (.scalar (.sstr templatePath)), rs2)

/-- Model of `TimesheetCacheService.invalidate_all_timesheets`. -/
def invalidateAllTimesheets (f : RedisFaults) (rs : RedisState) :
    Bool × RedisState :=
  redisDeletePattern f rs "timesheet:*"

/-! ## Derived definitions used by the theorems -/

/-- Boolean test that `p` is an initial segment of `s` (used to characterize
which keys the pattern `timesheet:*` matches). -/
def listStarts : List Char → List Char → Bool
  | [], _ => true
  | _ :: _, [] => false
  | p :: ps, c :: cs => p == c && listStarts ps cs

/-- Reading one named field out of a row-like or dict-like Python value
(attribute access on rows, key access on dicts, the fixed column order on
plain tuples). -/
def getField : PyVal → String → Option Scalar
  | .pdict fields, k => fields.lookup k
  | .prowA fields, k => fields.lookup k
  | .prowF fields, k => fields.lookup k
  | .ptuple vals, k => (columns.zip vals).lookup k
  | .scalar _, _ => none

/-- The `id` field of a successful optional result. -/
def idOf : Except PyError (Option PyVal) → Option Scalar
  | .ok (some v) => getField v "id"
  | _ => none

/-- The three supported shapes of an underlying employee row. -/
inductive RowShape where
  | viaAsdict
  | viaFields
  | viaTuple
  deriving DecidableEq, Repr

/-- An employee row rendered in one of the three supported shapes. -/
def mkRow : RowShape → Employee → PyVal
  | .viaAsdict, e => .prowA e.fieldList
  | .viaFields, e => .prowF e.fieldList
  | .viaTuple, e => .ptuple (e.fieldList.map Prod.snd)

/-- Cache serialization round-trip of a row: `_row_to_dict`, then
`json.dumps(..., default=str)` (`pyToJson`), then `json.loads` (`jsonToPy`). -/
def roundTrip (v : PyVal) : PyVal :=
  jsonToPy (pyToJson (row_to_dict v))

/-- Sample employee whose email is already set. -/
def aliceWithEmail : Employee :=
  ⟨1, "Alice", some "a@b.co", "42", true, 5⟩

/-- Sample authoritative store holding `aliceWithEmail`. -/
def dbAlice : DB :=
  ⟨[aliceWithEmail], 2, 9⟩

/-- Sample cache state warmed with the serialized snapshot of
`aliceWithEmail`, exactly as `_get_with_caching` would have stored it. -/
def warmRS : RedisState :=
  ⟨true, [(empKey "42", ⟨.good (pyToJson (row_to_dict aliceWithEmail.toRow)),
           EMPLOYEE_CACHE_TTL⟩)]⟩

/-! ## Helper lemmas -/

lemma redisGet_allFail (rs : RedisState) (key : String) :
    redisGet allFail rs key = (none, ⟨true, rs.store⟩) := by
  cases rs with
  | mk c s => cases c <;> rfl

lemma redisSet_allFail (rs : RedisState) (key : String) (v : PyVal) (ttl : Nat) :
    redisSet allFail rs key v ttl = (false, ⟨true, rs.store⟩) := by
  cases rs with
  | mk c s => cases c <;> rfl

lemma redisDelete_allFail (rs : RedisState) (key : String) :
    redisDelete allFail rs key = (false, ⟨true, rs.store⟩) := by
  cases rs with
  | mk c s => cases c <;> rfl

lemma redisGet_eq (f : RedisFaults) (rs : RedisState) (key : String) :
    redisGet f rs key =
      (if (rs.connected || !f.connect) && !f.get then
         match (rs.store.lookup key).map Entry.val with
         | some (.good doc) => some (jsonToPy doc)
         | _ => none
       else none,
       ⟨true, rs.store⟩) := by
  obtain ⟨c, s⟩ := rs
  cases c <;> cases hc : f.connect <;> cases hg : f.get <;>
    rcases hl : (s.lookup key).map Entry.val with _ | st <;> (try cases st) <;>
    simp [redisGet, redisGetBody, ensureConnect, hc, hg, hl]

lemma redisSet_eq (f : RedisFaults) (rs : RedisState) (key : String) (v : PyVal) (ttl : Nat) :
    redisSet f rs key v ttl =
      if (rs.connected || !f.connect) && !f.set then
        (true, ⟨true, storeSet key ⟨.good (pyToJson v), ttl⟩ rs.store⟩)
      else (false, ⟨true, rs.store⟩) := by
  obtain ⟨c, s⟩ := rs
  cases c <;> cases hc : f.connect <;> cases hs : f.set <;>
    simp [redisSet, redisSetBody, ensureConnect, hc, hs]

lemma redisGet_noFaults (rs : RedisState) (key : String) :
    redisGet noFaults rs key =
      (match (rs.store.lookup key).map Entry.val with
       | some (.good doc) => some (jsonToPy doc)
       | _ => none,
       ⟨true, rs.store⟩) := by
  rw [redisGet_eq]
  simp [noFaults]

lemma redisSet_noFaults (rs : RedisState) (key : String) (v : PyVal) (ttl : Nat) :
    redisSet noFaults rs key v ttl
      = (true, ⟨true, storeSet key ⟨.good (pyToJson v), ttl⟩ rs.store⟩) := by
  rw [redisSet_eq]
  simp [noFaults]

lemma redisGet_stable (f : RedisFaults) (rs : RedisState) (key : String) (v : PyVal)
    (rs1 : RedisState) (h : redisGet f rs key = (some v, rs1)) :
    redisGet f rs1 key = (some v, rs1) := by
  rw [redisGet_eq] at h
  rw [Prod.mk.injEq] at h
  obtain ⟨hval, hrs⟩ := h
  subst hrs
  rw [redisGet_eq]
  cases hgf : f.get
  · simp [hgf] at hval ⊢
    exact hval.2
  · simp [hgf] at hval

lemma getWithCaching_hit (f : RedisFaults) (tid : String)
    (fetch : DB → Except PyError (Option Employee) × DB) (rs : RedisState) (db : DB)
    (v : PyVal) (rs1 : RedisState)
    (hg : redisGet f rs (empKey tid) = (some v, rs1)) (hv : pyTruthy v = true) :
    getWithCaching f tid fetch rs db = (.ok (some v), rs1, db) := by
  simp [getWithCaching, hg, hv]

lemma getWithCaching_miss (f : RedisFaults) (tid : String)
    (fetch : DB → Except PyError (Option Employee) × DB) (rs : RedisState) (db : DB)
    (cachedv : Option PyVal) (rs1 : RedisState)
    (hg : redisGet f rs (empKey tid) = (cachedv, rs1))
    (hv : ∀ v, cachedv = some v → pyTruthy v = false) :
    getWithCaching f tid fetch rs db
      = match fetch db with
        | (.error e, db') => (.error e, rs1, db')
        | (.ok (some emp), db') =>
          (.ok (some emp.toRow),
           (redisSet f rs1 (empKey tid) (row_to_dict emp.toRow) EMPLOYEE_CACHE_TTL).2, db')
        | (.ok none, db') => (.ok none, rs1, db') := by
  cases cachedv with
  | none =>
    simp only [getWithCaching, hg]
    rcases hf : fetch db with ⟨r, db'⟩
    rcases r with e | o
    · rfl
    · cases o <;> rfl
  | some v =>
    simp only [getWithCaching, hg, hv v rfl]
    rcases hf : fetch db with ⟨r, db'⟩
    rcases r with e | o
    · rfl
    · cases o <;> rfl

lemma cacheGetOrCreate_def (f : RedisFaults) (tid name : String) (rs : RedisState) (db : DB) :
    cacheGetOrCreate f tid name rs db
      = getWithCaching f tid
          (fun db => ((.ok (EmployeeService.get_or_create_employee db tid name).1 :
              Except PyError (Option Employee)),
            (EmployeeService.get_or_create_employee db tid name).2)) rs db := rfl

lemma goc_found (db : DB) (tid name : String) (e : Employee)
    (h : findByTid db tid = some e) :
    EmployeeService.get_or_create_employee db tid name = (some e, db) := by
  unfold EmployeeService.get_or_create_employee
  simp [h]

lemma goc_returns_find (db : DB) (tid name : String) :
    (EmployeeService.get_or_create_employee db tid name).1
      = findByTid (EmployeeService.get_or_create_employee db tid name).2 tid := by
  unfold EmployeeService.get_or_create_employee
  rcases h : findByTid db tid with _ | e <;> simp [h]

lemma goc_some (db : DB) (tid name : String) :
    ∃ e, (EmployeeService.get_or_create_employee db tid name).1 = some e := by
  unfold EmployeeService.get_or_create_employee
  rcases h : findByTid db tid with _ | e
  · refine ⟨{ id := db.nextId, name := name, email := none, telegram_id := tid,
              is_active := true, created_at := db.now }, ?_⟩
    unfold findByTid at h ⊢
    simp [h, List.find?_append]
  · exact ⟨e, by simp [h]⟩

lemma goc_idem (db : DB) (tid name : String) :
    EmployeeService.get_or_create_employee
        (EmployeeService.get_or_create_employee db tid name).2 tid name
      = ((EmployeeService.get_or_create_employee db tid name).1,
         (EmployeeService.get_or_create_employee db tid name).2) := by
  obtain ⟨e, he⟩ := goc_some db tid name
  have hf := goc_returns_find db tid name
  rw [he] at hf
  rw [goc_found _ tid name e hf.symm, he]

lemma lookup_storeSet (k : String) (e : Entry) (s : List (String × Entry)) :
    (storeSet k e s).lookup k = some e := by
  simp [storeSet]

lemma getField_toRow_id (e : Employee) : getField e.toRow "id" = some (.sint e.id) := by
  simp [getField, Employee.toRow, Employee.fieldList]

lemma getField_round_id (e : Employee) :
    getField (jsonToPy (pyToJson (row_to_dict e.toRow))) "id" = some (.sint e.id) := by
  simp [getField, row_to_dict, Employee.toRow, Employee.fieldList, pyToJson, jsonToPy,
    scalarToJ, jToScalar]

lemma truthy_round (e : Employee) :
    pyTruthy (jsonToPy (pyToJson (row_to_dict e.toRow))) = true := by
  simp [pyTruthy, row_to_dict, Employee.toRow, Employee.fieldList, pyToJson, jsonToPy]

lemma cache_second_db (f : RedisFaults) (tid name : String) (rs' : RedisState) (db1 : DB)
    (hdb : (EmployeeService.get_or_create_employee db1 tid name).2 = db1) :
    (cacheGetOrCreate f tid name rs' db1).2.2 = db1 := by
  rcases hg : redisGet f rs' (empKey tid) with ⟨c2, rs3⟩
  have hmiss : ∀ (hv : ∀ v, c2 = some v → pyTruthy v = false),
      (cacheGetOrCreate f tid name rs' db1).2.2 = db1 := by
    intro hv
    have h2 := getWithCaching_miss f tid
      (fun db => ((.ok (EmployeeService.get_or_create_employee db tid name).1 :
          Except PyError (Option Employee)),
        (EmployeeService.get_or_create_employee db tid name).2))
      rs' db1 c2 rs3 hg hv
    show (getWithCaching f tid _ rs' db1).2.2 = db1
    rw [h2]
    rcases hgoc : EmployeeService.get_or_create_employee db1 tid name with ⟨r0, db2⟩
    have hdb2 : db2 = db1 := by rw [← hdb, hgoc]
    rcases r0 with _ | e <;> simp [hgoc, hdb2]
  rcases c2 with _ | v
  · exact hmiss (fun v hv => by cases hv)
  · by_cases hv : pyTruthy v = true
    · have h2 := getWithCaching_hit f tid
        (fun db => ((.ok (EmployeeService.get_or_create_employee db tid name).1 :
            Except PyError (Option Employee)),
          (EmployeeService.get_or_create_employee db tid name).2))
        rs' db1 v rs3 hg hv
      show (getWithCaching f tid _ rs' db1).2.2 = db1
      rw [h2]
    · rw [Bool.not_eq_true] at hv
      exact hmiss (fun u hu => Option.some.inj hu ▸ hv)

lemma cache_db_no_second_write (f : RedisFaults) (tid name : String) (rs : RedisState) (db : DB) :
    (cacheGetOrCreate f tid name (cacheGetOrCreate f tid name rs db).2.1
        (cacheGetOrCreate f tid name rs db).2.2).2.2
      = (cacheGetOrCreate f tid name rs db).2.2 := by
  have hmiss : ∀ (c1 : Option PyVal) (rs1 : RedisState),
      redisGet f rs (empKey tid) = (c1, rs1) →
      (∀ v, c1 = some v → pyTruthy v = false) →
      (cacheGetOrCreate f tid name (cacheGetOrCreate f tid name rs db).2.1
          (cacheGetOrCreate f tid name rs db).2.2).2.2
        = (cacheGetOrCreate f tid name rs db).2.2 := by
    intro c1 rs1 hg1 hv
    rw [cacheGetOrCreate_def f tid name rs db,
      getWithCaching_miss f tid _ rs db c1 rs1 hg1 hv]
    rcases hgoc : EmployeeService.get_or_create_employee db tid name with ⟨r0, db1⟩
    have hdb1 : (EmployeeService.get_or_create_employee db1 tid name).2 = db1 := by
      have hidem := goc_idem db tid name
      rw [hgoc] at hidem
      simp only at hidem
      rw [hidem]
    simp only [hgoc]
    rcases r0 with _ | e
    · simp only
      exact cache_second_db f tid name rs1 db1 hdb1
    · simp only
      exact cache_second_db f tid name _ db1 hdb1
  rcases hg1 : redisGet f rs (empKey tid) with ⟨c1, rs1⟩
  rcases c1 with _ | v
  · exact hmiss none rs1 hg1 (fun v hv => by cases hv)
  · by_cases hv : pyTruthy v = true
    · have hst := redisGet_stable f rs (empKey tid) v rs1 hg1
      rw [cacheGetOrCreate_def f tid name rs db,
        getWithCaching_hit f tid _ rs db v rs1 hg1 hv]
      simp only
      rw [cacheGetOrCreate_def f tid name rs1 db,
        getWithCaching_hit f tid _ rs1 db v rs1 hst hv]
    · rw [Bool.not_eq_true] at hv
      exact hmiss (some v) rs1 hg1 (fun u hu => Option.some.inj hu ▸ hv)

lemma cache_id_stable (tid name : String) (rs : RedisState) (db : DB) :
    idOf (cacheGetOrCreate noFaults tid name rs db).1
      = idOf (cacheGetOrCreate noFaults tid name
          (cacheGetOrCreate noFaults tid name rs db).2.1
          (cacheGetOrCreate noFaults tid name rs db).2.2).1 ∧
    (∃ v, (cacheGetOrCreate noFaults tid name rs db).1 = .ok (some v)) := by
  have hg0 := redisGet_noFaults rs (empKey tid)
  have hmiss : ∀ (c1 : Option PyVal),
      redisGet noFaults rs (empKey tid) = (c1, ⟨true, rs.store⟩) →
      (∀ v, c1 = some v → pyTruthy v = false) →
      idOf (cacheGetOrCreate noFaults tid name rs db).1
        = idOf (cacheGetOrCreate noFaults tid name
            (cacheGetOrCreate noFaults tid name rs db).2.1
            (cacheGetOrCreate noFaults tid name rs db).2.2).1 ∧
      (∃ v, (cacheGetOrCreate noFaults tid name rs db).1 = .ok (some v)) := by
    intro c1 hg1 hv
    obtain ⟨e, he⟩ := goc_some db tid name
    rcases hgoc : EmployeeService.get_or_create_employee db tid name with ⟨r0, db1⟩
    rw [hgoc] at he
    simp only at he
    subst he
    have h1 : cacheGetOrCreate noFaults tid name rs db
        = (.ok (some e.toRow),
           (redisSet noFaults ⟨true, rs.store⟩ (empKey tid)
             (row_to_dict e.toRow) EMPLOYEE_CACHE_TTL).2, db1) := by
      rw [cacheGetOrCreate_def,
        getWithCaching_miss noFaults tid _ rs db c1 ⟨true, rs.store⟩ hg1 hv]
      simp only [hgoc]
    rw [h1]
    have hrs2 : (redisSet noFaults ⟨true, rs.store⟩ (empKey tid)
        (row_to_dict e.toRow) EMPLOYEE_CACHE_TTL).2
        = ⟨true, storeSet (empKey tid)
            ⟨.good (pyToJson (row_to_dict e.toRow)), EMPLOYEE_CACHE_TTL⟩ rs.store⟩ := by
      rw [redisSet_noFaults]
    have hg2 : redisGet noFaults
        (⟨true, storeSet (empKey tid)
          ⟨.good (pyToJson (row_to_dict e.toRow)), EMPLOYEE_CACHE_TTL⟩ rs.store⟩ : RedisState)
        (empKey tid)
        = (some (jsonToPy (pyToJson (row_to_dict e.toRow))),
           ⟨true, storeSet (empKey tid)
             ⟨.good (pyToJson (row_to_dict e.toRow)), EMPLOYEE_CACHE_TTL⟩ rs.store⟩) := by
      rw [redisGet_noFaults]
      simp [lookup_storeSet]
    have h2 : cacheGetOrCreate noFaults tid name
        (⟨true, storeSet (empKey tid)
          ⟨.good (pyToJson (row_to_dict e.toRow)), EMPLOYEE_CACHE_TTL⟩ rs.store⟩ : RedisState)
        db1
        = (.ok (some (jsonToPy (pyToJson (row_to_dict e.toRow)))),
           ⟨true, storeSet (empKey tid)
             ⟨.good (pyToJson (row_to_dict e.toRow)), EMPLOYEE_CACHE_TTL⟩ rs.store⟩, db1) := by
      rw [cacheGetOrCreate_def,
        getWithCaching_hit noFaults tid _ _ db1 _ _ hg2 (truthy_round e)]
    simp only [hrs2]
    rw [h2]
    refine ⟨?_, e.toRow, rfl⟩
    simp only [idOf, getField_toRow_id, getField_round_id]
  rcases hl : (rs.store.lookup (empKey tid)).map Entry.val with _ | st
  · rw [hl] at hg0
    exact hmiss none hg0 (fun v hv => by cases hv)
  · cases st with
    | good doc =>
      rw [hl] at hg0
      by_cases hv : pyTruthy (jsonToPy doc) = true
      · have h1 : cacheGetOrCreate noFaults tid name rs db
            = (.ok (some (jsonToPy doc)), ⟨true, rs.store⟩, db) := by
          rw [cacheGetOrCreate_def, getWithCaching_hit noFaults tid _ rs db _ _ hg0 hv]
        have hg2 : redisGet noFaults (⟨true, rs.store⟩ : RedisState) (empKey tid)
            = (some (jsonToPy doc), ⟨true, rs.store⟩) := by
          rw [redisGet_noFaults]
          simp [hl]
        have h2 : cacheGetOrCreate noFaults tid name (⟨true, rs.store⟩ : RedisState) db
            = (.ok (some (jsonToPy doc)), ⟨true, rs.store⟩, db) := by
          rw [cacheGetOrCreate_def, getWithCaching_hit noFaults tid _ _ db _ _ hg2 hv]
        rw [h1]
        simp only
        rw [h2]
        exact ⟨rfl, jsonToPy doc, rfl⟩
      · rw [Bool.not_eq_true] at hv
        exact hmiss (some (jsonToPy doc)) hg0 (fun u hu => Option.some.inj hu ▸ hv)
    | malformed raw =>
      rw [hl] at hg0
      exact hmiss none hg0 (fun v hv => by cases hv)

lemma globMatch_star (cs : List Char) : globMatch ['*'] cs = true := by
  induction cs with
  | nil => simp [globMatch]
  | cons c cs ih => simp [globMatch, ih]

lemma globMatch_lit_star (p : List Char)
    (hp : p.all (fun c => !(c == '*') && !(c == '?')) = true) (s : List Char) :
    globMatch (p ++ ['*']) s = listStarts p s := by
  induction p generalizing s with
  | nil => simp [listStarts, globMatch_star]
  | cons c p ih =>
    rw [List.all_cons, Bool.and_eq_true, Bool.and_eq_true] at hp
    obtain ⟨⟨hstar, hq⟩, hrest⟩ := hp
    rw [Bool.not_eq_true'] at hstar hq
    have hcs : c ≠ '*' := by
      intro h; rw [h] at hstar; simp at hstar
    rcases s with _ | ⟨d, s⟩
    · simp [globMatch, listStarts, hcs]
    · simp [globMatch, listStarts, hcs, hq, ih hrest s]

lemma lookup_filter {β : Type} (s : List (String × β)) (k : String) (pred : String → Bool)
    (h : pred k = true) :
    (s.filter fun p => pred p.1).lookup k = s.lookup k := by
  induction s with
  | nil => rfl
  | cons a s ih =>
    by_cases hk : k == a.1
    · have ha : k = a.1 := eq_of_beq hk
      have hpa : pred a.1 = true := ha ▸ h
      simp [List.filter, List.lookup, hk, hpa]
    · rw [Bool.not_eq_true] at hk
      cases hp : pred a.1 <;> simp [List.filter, List.lookup, hk, hp, ih]

lemma tsPat_data : "timesheet:*".data = "timesheet:".data ++ ['*'] := by decide

lemma tsLit_ok : ("timesheet:".data.all fun c => !(c == '*') && !(c == '?')) = true := by decide

lemma empKey_not_ts (tid : String) :
    listStarts "timesheet:".data (empKey tid).data = false := by
  have h : (empKey tid).data = 'e' :: ("mployee:telegram:".data ++ tid.data) := by
    show ("employee:telegram:" ++ tid).data = _
    rw [String.data_append]
    rfl
  rw [show "timesheet:".data = 't' :: "imesheet:".data from rfl, h]
  simp [listStarts]

lemma redisDeletePattern_noFaults (cc : Bool) (s : List (String × Entry)) (pat : String) :
    redisDeletePattern noFaults ⟨cc, s⟩ pat
      = (true, ⟨true,
          if ((s.map Prod.fst).filter fun k => globMatch pat.data k.data).isEmpty
          then s
          else s.filter fun p => !globMatch pat.data p.1.data⟩) := by
  unfold redisDeletePattern redisDeletePatternBody ensureConnect
  cases cc <;>
    cases he : ((s.map Prod.fst).filter fun k => globMatch pat.data k.data).isEmpty <;>
      simp [noFaults, he]

/-! ## Claim theorems -/

/-- Claim C1 (graceful degradation under a fully failing cache): with every
cache backend operation failing (`allFail`), `get_or_create_employee`,
`get_employee_by_telegram_id` and `update_employee_email` return exactly the
value and authoritative-store state of their no-cache counterparts, with no
cache-layer exception escaping.  The claim fails for `generate_timesheet`:
its cache-miss path calls the full generator with no argument, so instead of
the generator's result a `TypeError` escapes to the caller. -/
theorem claim_C1_failing_cache_degradation (tid name email empName : String)
    (rs : RedisState) (db : DB) (g : Generator) (env : MatEnv) :
    cacheGetOrCreate allFail tid name rs db
      = ((botNoCacheGetOrCreate tid name db).1, ⟨true, rs.store⟩,
         (botNoCacheGetOrCreate tid name db).2) ∧
    cacheGetByTid allFail tid rs db
      = ((botNoCacheGetByTid tid db).1, ⟨true, rs.store⟩,
         (botNoCacheGetByTid tid db).2) ∧
    (cacheUpdateEmail allFail tid email rs db).1 = (botNoCacheUpdateEmail tid email db).1 ∧
    (cacheUpdateEmail allFail tid email rs db).2.2 = (botNoCacheUpdateEmail tid email db).2 ∧
    (tcGenerateTimesheet g allFail env rs empName).1
      = .error (.typeError
          "generate_timesheet() missing 1 required positional argument: employee_name") := by
  refine ⟨?_, ?_, ?_, ?_, ?_⟩
  · simp only [cacheGetOrCreate, getWithCaching, redisGet_allFail, botNoCacheGetOrCreate]
    rcases hf : EmployeeService.get_or_create_employee db tid name with ⟨r, db'⟩
    cases r <;> simp [redisSet_allFail]
  · simp only [cacheGetByTid, getWithCaching, redisGet_allFail, botNoCacheGetByTid]
    rcases hf : EmployeeService.get_employee_by_telegram_id db tid with ⟨r, db'⟩
    cases r <;> simp [redisSet_allFail]
  · simp only [cacheUpdateEmail, botNoCacheUpdateEmail]
    rcases hu : EmployeeService.update_employee_email db tid email with ⟨r, db'⟩
    cases r with
    | error e => simp
    | ok o => cases o <;> simp [redisSet_allFail, redisDelete_allFail]
  · simp only [cacheUpdateEmail, botNoCacheUpdateEmail]
    rcases hu : EmployeeService.update_employee_email db tid email with ⟨r, db'⟩
    cases r with
    | error e => simp
    | ok o => cases o <;> simp [redisSet_allFail, redisDelete_allFail]
  · simp [tcGenerateTimesheet, redisGet_allFail, callGenerateTimesheet]

/-- Claim C2 (cache transparency): the claim fails on the code.  At a warm
cache, `get_or_create_employee` through the cache service returns the
`json.loads` dictionary (with `created_at` turned into its string rendering),
while with caching disabled the same call returns the SQLAlchemy row object;
the two results are not field-for-field equal, so a cache hit is
distinguishable from a fresh read (the bot's own `employee.email` attribute
access works only on the row shape). -/
theorem claim_C2_cache_hit_shape_divergence :
    (cacheGetOrCreate noFaults "42" "Alice" warmRS dbAlice).1
      = .ok (some (.pdict [("id", .sint 1), ("name", .sstr "Alice"), ("email", .sstr "a@b.co"),
          ("telegram_id", .sstr "42"), ("is_active", .sbool true),
          ("created_at", .sstr (dtStr 5))])) ∧
    (botNoCacheGetOrCreate "42" "Alice" dbAlice).1
      = .ok (some (.prowA aliceWithEmail.fieldList)) ∧
    (cacheGetOrCreate noFaults "42" "Alice" warmRS dbAlice).1
      ≠ (botNoCacheGetOrCreate "42" "Alice" dbAlice).1 := by
  refine ⟨rfl, rfl, ?_⟩
  have h1 : (cacheGetOrCreate noFaults "42" "Alice" warmRS dbAlice).1
      = .ok (some (.pdict [("id", .sint 1), ("name", .sstr "Alice"), ("email", .sstr "a@b.co"),
          ("telegram_id", .sstr "42"), ("is_active", .sbool true),
          ("created_at", .sstr (dtStr 5))])) := rfl
  have h2 : (botNoCacheGetOrCreate "42" "Alice" dbAlice).1
      = .ok (some (.prowA aliceWithEmail.fieldList)) := rfl
  rw [h1, h2]
  simp

/-- Claim C3 (cache backend adapter is best-effort): whenever the body of a
`RedisService` operation raises — including a failing lazy connection attempt,
a transport failure of the underlying client call, or a malformed stored
value — `get` returns absent and `set`/`delete`/`delete_pattern` return
`false`; the `try/except` wrappers never let an exception escape. -/
theorem claim_C3_cache_backend_best_effort (f : RedisFaults) (rs : RedisState)
    (key pat : String) (v : PyVal) (ttl : Nat) :
    (∀ e, (redisGetBody f rs key).1 = .error e → (redisGet f rs key).1 = none) ∧
    (∀ e, (redisSetBody f rs key v ttl).1 = .error e → (redisSet f rs key v ttl).1 = false) ∧
    (∀ e, (redisDeleteBody f rs key).1 = .error e → (redisDelete f rs key).1 = false) ∧
    (∀ e, (redisDeletePatternBody f rs pat).1 = .error e →
      (redisDeletePattern f rs pat).1 = false) ∧
    (rs.connected = false → f.connect = true →
      (redisGet f rs key).1 = none ∧ (redisSet f rs key v ttl).1 = false ∧
      (redisDelete f rs key).1 = false ∧ (redisDeletePattern f rs pat).1 = false) ∧
    (f.get = true → (redisGet f rs key).1 = none) ∧
    (f.set = true → (redisSet f rs key v ttl).1 = false) ∧
    (f.del = true → (redisDelete f rs key).1 = false) ∧
    (f.keys = true → (redisDeletePattern f rs pat).1 = false) ∧
    (∀ raw, (rs.store.lookup key).map Entry.val = some (.malformed raw) →
      (redisGet f rs key).1 = none) := by
  obtain ⟨c, s⟩ := rs
  refine ⟨?_, ?_, ?_, ?_, ?_, ?_, ?_, ?_, ?_, ?_⟩
  · intro e h
    unfold redisGet
    rcases hb : redisGetBody f ⟨c, s⟩ key with ⟨r, rs'⟩
    rw [hb] at h
    cases r <;> simp_all
  · intro e h
    unfold redisSet
    rcases hb : redisSetBody f ⟨c, s⟩ key v ttl with ⟨r, rs'⟩
    rw [hb] at h
    cases r <;> simp_all
  · intro e h
    unfold redisDelete
    rcases hb : redisDeleteBody f ⟨c, s⟩ key with ⟨r, rs'⟩
    rw [hb] at h
    cases r <;> simp_all
  · intro e h
    unfold redisDeletePattern
    rcases hb : redisDeletePatternBody f ⟨c, s⟩ pat with ⟨r, rs'⟩
    rw [hb] at h
    cases r <;> simp_all
  · intro hc hf
    subst hc
    simp [redisGet, redisGetBody, redisSet, redisSetBody, redisDelete, redisDeleteBody,
      redisDeletePattern, redisDeletePatternBody, ensureConnect, hf]
  · intro hg
    cases c <;> cases hc : f.connect <;>
      simp [redisGet, redisGetBody, ensureConnect, hg, hc]
  · intro hs
    cases c <;> cases hc : f.connect <;>
      simp [redisSet, redisSetBody, ensureConnect, hs, hc]
  · intro hd
    cases c <;> cases hc : f.connect <;>
      simp [redisDelete, redisDeleteBody, ensureConnect, hd, hc]
  · intro hk
    cases c <;> cases hc : f.connect <;>
      simp [redisDeletePattern, redisDeletePatternBody, ensureConnect, hk, hc]
  · intro raw hm
    cases c <;> cases hc : f.connect <;> cases hg : f.get <;>
      simp [redisGet, redisGetBody, ensureConnect, hc, hg, hm]

/-- Witness for claim C3 at a disconnected state with every client call
failing. -/
theorem claim_C3_cache_backend_best_effort_witness :
    (redisGet allFail ⟨false, []⟩ "k").1 = none ∧
    (redisSet allFail ⟨false, []⟩ "k" (.scalar .snone) 60).1 = false ∧
    (redisDelete allFail ⟨false, []⟩ "k").1 = false ∧
    (redisDeletePattern allFail ⟨false, []⟩ "t:*").1 = false :=
  (claim_C3_cache_backend_best_effort allFail ⟨false, []⟩ "k" "t:*"
    (.scalar .snone) 60).2.2.2.2.1 rfl rfl

/-- Claim C4 (template-cache miss): the claim fails on the code.  On a miss,
`TimesheetCacheService.generate_timesheet` calls
`TimeSheetGenerator.generate_timesheet()` with no argument, but the
generator's signature requires `employee_name`, so the call raises
`TypeError` before any template is produced, cached or materialized. -/
theorem claim_C4_template_miss_type_error :
    (∀ g : Generator, callGenerateTimesheet g none
      = .error (.typeError
          "generate_timesheet() missing 1 required positional argument: employee_name")) ∧
    tcGenerateTimesheet ⟨1, 2026⟩ noFaults ⟨false, "/tmp/m.xlsx"⟩ ⟨true, []⟩ "Alice"
      = (.error (.typeError
          "generate_timesheet() missing 1 required positional argument: employee_name"),
         ⟨true, []⟩) :=
  ⟨fun _ => rfl, rfl⟩

/-- Claim C5 (update failure invalidates the cache entry): the claim fails on
the code.  A failing authoritative update raises out of
`EmployeeCacheService.update_employee_email` before any cache access, so the
cache entry for the external id is left in place, not deleted; the success
path does overwrite the entry. -/
theorem claim_C5_failed_update_keeps_cache_entry :
    (cacheUpdateEmail noFaults "42" "not-an-email" warmRS dbAlice).1
      = .error (.valueError "Invalid email format") ∧
    (cacheUpdateEmail noFaults "42" "not-an-email" warmRS dbAlice).2.1 = warmRS ∧
    (cacheUpdateEmail noFaults "42" "not-an-email" warmRS dbAlice).2.2 = dbAlice ∧
    warmRS.store.lookup (empKey "42") ≠ none ∧
    (cacheUpdateEmail noFaults "42" "b@c.de" warmRS dbAlice).2.1.store.lookup (empKey "42")
      = some ⟨.good (pyToJson (Employee.toRow ⟨1, "Alice", some "b@c.de", "42", true, 5⟩)),
              EMPLOYEE_CACHE_TTL⟩ :=
  ⟨rfl, rfl, rfl, by decide, rfl⟩

/-- Counterexample to claim C6 as stated: for a row whose `created_at` holds
a `datetime`, the deserialized cache value carries the string rendering of
the datetime, not a value field-equal to the original. -/
theorem claim_C6_roundtrip_counterexample :
    getField (roundTrip (Employee.toRow ⟨1, "Alice", none, "42", true, 0⟩)) "created_at"
      = some (.sstr (dtStr 0)) ∧
    getField (Employee.toRow ⟨1, "Alice", none, "42", true, 0⟩) "created_at"
      = some (.sdt 0) ∧
    Scalar.sstr (dtStr 0) ≠ Scalar.sdt 0 :=
  ⟨rfl, rfl, by decide⟩

/-- Claim C6 as amended: for every employee row in any of the three supported
shapes, the serialization round-trip yields the mapping that agrees with the
row on `id`, `name`, `email` (including a null email), `telegram_id` and
`is_active`, while `created_at` comes back as the string rendering of the
stored datetime. -/
theorem claim_C6_roundtrip_amended (e : Employee) (shape : RowShape) :
    roundTrip (mkRow shape e)
      = .pdict [("id", .sint e.id), ("name", .sstr e.name),
          ("email", match e.email with | some s => .sstr s | none => .snone),
          ("telegram_id", .sstr e.telegram_id), ("is_active", .sbool e.is_active),
          ("created_at", .sstr (dtStr e.created_at))] := by
  cases shape <;> rcases e with ⟨i, n, em, t, a, cr⟩ <;> cases em <;> rfl

/-- Claim C7 (materialization failure falls back to full regeneration): when
any step of per-employee materialization fails, the result is exactly the
full generator invoked with the employee name; in particular, through
`generate_timesheet` on a cache hit the caller still receives the
generator's path. -/
theorem claim_C7_materialization_fallback (g : Generator) (env : MatEnv)
    (name : String) (tpl : PyVal) (p : String) (t : Nat) (rs : RedisState)
    (hf : env.fails = true) :
    materializeFromTemplate g env name tpl = callGenerateTimesheet g (some name) ∧
    materializeFromTemplate g env name tpl = .ok (genPath g name) ∧
    (rs.store.lookup (tplKey g.month g.year) = some ⟨.good (.jscalar (.jstr p)), t⟩ →
      p ≠ "" →
      (tcGenerateTimesheet g noFaults env rs name).1 = .ok (genPath g name)) := by
  obtain ⟨fails, tmp⟩ := env
  simp only at hf
  subst hf
  refine ⟨rfl, rfl, ?_⟩
  intro hl hp
  obtain ⟨c, s⟩ := rs
  simp only at hl
  cases c <;>
    simp [tcGenerateTimesheet, redisGet, redisGetBody, ensureConnect, noFaults, hl,
      materializeFromTemplate, callGenerateTimesheet, jsonToPy, jToScalar, pyTruthy,
      scalarTruthy, hp]

/-- Witness for claim C7 at a failing materialization step over a warm
template cache. -/
theorem claim_C7_materialization_fallback_witness :
    materializeFromTemplate ⟨1, 2026⟩ ⟨true, "/tmp/m.xlsx"⟩ "Alice"
        (.scalar (.sstr "/tmp/t.xlsx"))
      = .ok (genPath ⟨1, 2026⟩ "Alice") ∧
    (tcGenerateTimesheet ⟨1, 2026⟩ noFaults ⟨true, "/tmp/m.xlsx"⟩
        ⟨true, [(tplKey 1 2026, ⟨.good (.jscalar (.jstr "/tmp/t.xlsx")),
          TIMESHEET_CACHE_TTL⟩)]⟩ "Alice").1
      = .ok (genPath ⟨1, 2026⟩ "Alice") :=
  have h := claim_C7_materialization_fallback ⟨1, 2026⟩ ⟨true, "/tmp/m.xlsx"⟩ "Alice"
    (.scalar (.sstr "/tmp/t.xlsx")) "/tmp/t.xlsx" TIMESHEET_CACHE_TTL
    ⟨true, [(tplKey 1 2026, ⟨.good (.jscalar (.jstr "/tmp/t.xlsx")),
      TIMESHEET_CACHE_TTL⟩)]⟩ rfl
  ⟨h.2.1, h.2.2 rfl (by decide)⟩

/-- Claim C8 (idempotent creation): `get_or_create_employee` always returns a
record; repeating it returns the same record and leaves the store untouched;
through the cache service the second call never writes to the authoritative
store under any fault pattern, and under a working cache backend both calls
expose the same `id` field. -/
theorem claim_C8_get_or_create_idempotent (db : DB) (tid name : String)
    (f : RedisFaults) (rs : RedisState) :
    (∃ e, (EmployeeService.get_or_create_employee db tid name).1 = some e) ∧
    EmployeeService.get_or_create_employee
        (EmployeeService.get_or_create_employee db tid name).2 tid name
      = ((EmployeeService.get_or_create_employee db tid name).1,
         (EmployeeService.get_or_create_employee db tid name).2) ∧
    (cacheGetOrCreate f tid name (cacheGetOrCreate f tid name rs db).2.1
        (cacheGetOrCreate f tid name rs db).2.2).2.2
      = (cacheGetOrCreate f tid name rs db).2.2 ∧
    idOf (cacheGetOrCreate noFaults tid name rs db).1
      = idOf (cacheGetOrCreate noFaults tid name
          (cacheGetOrCreate noFaults tid name rs db).2.1
          (cacheGetOrCreate noFaults tid name rs db).2.2).1 :=
  ⟨goc_some db tid name, goc_idem db tid name,
   cache_db_no_second_write f tid name rs db, (cache_id_stable tid name rs db).1⟩

/-- Counterexample to claim C9 as stated: `update_employee_email` does not
check that the email is still null, so a second update with a different valid
unique address succeeds and the email field transitions a second time. -/
theorem claim_C9_second_transition_counterexample :
    (EmployeeService.update_employee_email
        ⟨[⟨1, "Alice", none, "42", true, 0⟩], 2, 0⟩ "42" "a@b.co").1
      = .ok (some ⟨1, "Alice", some "a@b.co", "42", true, 0⟩) ∧
    (EmployeeService.update_employee_email
        (EmployeeService.update_employee_email
          ⟨[⟨1, "Alice", none, "42", true, 0⟩], 2, 0⟩ "42" "a@b.co").2
        "42" "c@d.io").1
      = .ok (some ⟨1, "Alice", some "c@d.io", "42", true, 0⟩) ∧
    (some "a@b.co" : Option String) ≠ none ∧
    (some "a@b.co" : Option String) ≠ some "c@d.io" :=
  ⟨rfl, rfl, by decide, by decide⟩

/-- Claim C9 as amended: records are created with a null email; an update
either leaves a record's email unchanged or sets it to the given value, which
is then format-validated and not used by any other employee; no core
operation ever turns an email back to null. -/
theorem claim_C9_email_amended (db : DB) (tid name email : String) :
    ((EmployeeService.get_or_create_employee db tid name).2.rows = db.rows ∨
      ∃ e, (EmployeeService.get_or_create_employee db tid name).2.rows = db.rows ++ [e] ∧
        e.email = none) ∧
    (∀ r ∈ db.rows, ∃ r' ∈ (EmployeeService.update_employee_email db tid email).2.rows,
      r'.id = r.id ∧ r'.telegram_id = r.telegram_id ∧
      (r'.email = r.email ∨
        (r'.email = some email ∧ is_valid_email email = true ∧
          ∀ o ∈ db.rows, o.telegram_id ≠ tid → o.email ≠ some email))) := by
  constructor
  · unfold EmployeeService.get_or_create_employee
    rcases h : findByTid db tid with _ | e
    · right
      refine ⟨{ id := db.nextId, name := name, email := none, telegram_id := tid,
                is_active := true, created_at := db.now }, ?_, rfl⟩
      simp [h]
    · left
      simp [h]
  · intro r hr
    by_cases hv : is_valid_email email
    · rcases hfind : findByTid db tid with _ | e0
      · have hres : (EmployeeService.update_employee_email db tid email).2 = db := by
          unfold EmployeeService.update_employee_email
          simp [hv, hfind]
        rw [hres]
        exact ⟨r, hr, rfl, rfl, Or.inl rfl⟩
      · by_cases ha : (db.rows.any fun o => o.telegram_id != tid && o.email == some email) = true
        · have hres : (EmployeeService.update_employee_email db tid email).2 = db := by
            unfold EmployeeService.update_employee_email
            simp [hv, hfind, ha]
          rw [hres]
          exact ⟨r, hr, rfl, rfl, Or.inl rfl⟩
        · rw [Bool.not_eq_true] at ha
          have hres : (EmployeeService.update_employee_email db tid email).2.rows
              = db.rows.map (fun r =>
                  if r.telegram_id == tid then { r with email := some email } else r) := by
            unfold EmployeeService.update_employee_email
            simp [hv, hfind, ha]
          rw [hres]
          refine ⟨(if r.telegram_id == tid then { r with email := some email } else r),
            List.mem_map_of_mem _ hr, ?_⟩
          by_cases ht : (r.telegram_id == tid) = true
          · rw [if_pos ht]
            refine ⟨rfl, rfl, Or.inr ⟨rfl, hv, ?_⟩⟩
            intro o ho hot hoe
            rw [List.any_eq_false] at ha
            have h2 := ha o ho
            rw [Bool.and_eq_true] at h2
            exact h2 ⟨bne_iff_ne.mpr hot, beq_iff_eq.mpr hoe⟩
          · rw [if_neg ht]
            exact ⟨rfl, rfl, Or.inl rfl⟩
    · rw [Bool.not_eq_true] at hv
      have hres : (EmployeeService.update_employee_email db tid email).2 = db := by
        unfold EmployeeService.update_employee_email
        simp [hv]
      rw [hres]
      exact ⟨r, hr, rfl, rfl, Or.inl rfl⟩

/-- Witness for the amended claim C9 at a concrete store and a rejected
update. -/
theorem claim_C9_email_amended_witness :
    ∃ r', r' ∈ (EmployeeService.update_employee_email dbAlice "42" "not-an-email").2.rows ∧
      r'.id = aliceWithEmail.id ∧ r'.telegram_id = aliceWithEmail.telegram_id ∧
      (r'.email = aliceWithEmail.email ∨
        (r'.email = some "not-an-email" ∧ is_valid_email "not-an-email" = true ∧
          ∀ o ∈ dbAlice.rows, o.telegram_id ≠ "42" → o.email ≠ some "not-an-email")) :=
  (claim_C9_email_amended dbAlice "42" "Bob" "not-an-email").2 aliceWithEmail
    (by simp [dbAlice])

/-- Claim C10 (frame of `invalidate_all_timesheets`): with a working backend
the call succeeds, the surviving entries are exactly those whose key does not
match `timesheet:*` (a key matches iff it starts with `timesheet:`), and
every employee identity entry `employee:telegram:<id>` is preserved with an
unchanged value. -/
theorem claim_C10_invalidate_frame (rs : RedisState) :
    (invalidateAllTimesheets noFaults rs).1 = true ∧
    (∀ k e, (k, e) ∈ (invalidateAllTimesheets noFaults rs).2.store ↔
      ((k, e) ∈ rs.store ∧ listStarts "timesheet:".data k.data = false)) ∧
    (∀ tid, (invalidateAllTimesheets noFaults rs).2.store.lookup (empKey tid)
      = rs.store.lookup (empKey tid)) := by
  obtain ⟨c, s⟩ := rs
  have hglob : ∀ k : String,
      globMatch "timesheet:*".data k.data = listStarts "timesheet:".data k.data := by
    intro k
    rw [tsPat_data, globMatch_lit_star _ tsLit_ok]
  rw [show invalidateAllTimesheets noFaults ⟨c, s⟩
        = redisDeletePattern noFaults ⟨c, s⟩ "timesheet:*" from rfl,
      redisDeletePattern_noFaults]
  cases he : ((s.map Prod.fst).filter fun k => globMatch "timesheet:*".data k.data).isEmpty with
  | true =>
    rw [if_pos rfl]
    have hall : ∀ p ∈ s, listStarts "timesheet:".data p.1.data = false := by
      rw [List.isEmpty_iff, List.filter_eq_nil_iff] at he
      intro p hp
      have hne := he p.1 (List.mem_map_of_mem Prod.fst hp)
      rw [Bool.not_eq_true] at hne
      rw [← hglob]
      exact hne
    refine ⟨rfl, ?_, fun tid => rfl⟩
    intro k e
    exact ⟨fun hm => ⟨hm, hall (k, e) hm⟩, fun hm => hm.1⟩
  | false =>
    rw [if_neg (by simp)]
    refine ⟨rfl, ?_, ?_⟩
    · intro k e
      simp [List.mem_filter, hglob]
    · intro tid
      have := lookup_filter s (empKey tid)
        (fun k => !globMatch "timesheet:*".data k.data)
        (by
          show (!globMatch "timesheet:*".data (empKey tid).data) = true
          rw [hglob, empKey_not_ts]
          rfl)
      simpa using this

end SheetMate


